import Mathlib

/-!
Verification of the eurostat intra-EU road freight script
(eurostat_intra_eu_trade_2022.py).

The script is a linear pandas pipeline.  We embed it shallowly:

* a DataFrame is a Lean list of structure values (one structure per table
  shape), column order and row order preserved;
* pandas float values (which may be NaN) are Option Rat, with none for NaN;
* string columns that may hold NaN after a left join are Option String;
* Python str.strip is modelled on the character list of the string
  (dropWhile whitespace from the left, rdropWhile whitespace from the
  right); Python str.split(",") is a structural split on commas over the
  character list;
* a positional access `.values[0]` that raises IndexError on an empty
  frame is modelled by List.head?, with none marking the raise;
* pandas merge(how="left") duplicates a left row once per matching right
  row and keeps unmatched left rows with a null payload;
* pandas Series.sum skips NaN and returns 0.0 on an empty series, modelled
  by filterMap followed by List.sum.
-/

namespace EurostatRoad

/-- One row of the country-code reference table read from
data/country_code.xlsx: columns Country, Alpha-2 code, Alpha-3 code,
Numeric. -/
@[ext] structure CountryRow where
  country : String
  alpha2 : String
  alpha3 : String
  numeric : Int
deriving DecidableEq

/-- The dict country_updates of get_country_codes, in insertion order:
2-letter code to corrected country name. -/
def country_updates : List (String × String) :=
  [("US", "United States"), ("GB", "United Kingdom"),
   ("NL", "Netherlands"), ("MD", "Moldova")]

/-- The dict code_updates of get_country_codes, in insertion order:
country name to corrected 2-letter code. -/
def code_updates : List (String × String) :=
  [("Greece", "EL"), ("United Kingdom", "UK")]

/-- First loop of get_country_codes: for each (code, country) in
country_updates, set Country to country on every row whose Alpha-2 code
equals code. -/
def apply_country_updates (t : List CountryRow) : List CountryRow :=
  country_updates.foldl
    (fun acc cu =>
      acc.map (fun r => if r.alpha2 = cu.1 then { r with country := cu.2 } else r))
    t

/-- Second loop of get_country_codes: for each (country, code) in
code_updates, set Alpha-2 code to code on every row whose Country equals
country. -/
def apply_code_updates (t : List CountryRow) : List CountryRow :=
  code_updates.foldl
    (fun acc cu =>
      acc.map (fun r => if r.country = cu.1 then { r with alpha2 := cu.2 } else r))
    t

/-- Both rewrite passes of get_country_codes, in program order: the name
rewrites first, the code rewrites second. -/
def apply_updates (t : List CountryRow) : List CountryRow :=
  apply_code_updates (apply_country_updates t)

/-- The synthetic row appended by get_country_codes. -/
def kosovo_row : CountryRow :=
  { country := "Kosovo", alpha2 := "XK", alpha3 := "XKO", numeric := 9999 }

/-- get_country_codes, parameterised by the table read from the Excel
file: apply the name rewrites, then the code rewrites, then append the
Kosovo row. -/
def get_country_codes (t : List CountryRow) : List CountryRow :=
  apply_updates t ++ [kosovo_row]

/-- The effect of the name-rewrite loop on a single row, updates applied
in dict insertion order. -/
def fix_country (r : CountryRow) : CountryRow :=
  let r1 := if r.alpha2 = "US" then { r with country := "United States" } else r
  let r2 := if r1.alpha2 = "GB" then { r1 with country := "United Kingdom" } else r1
  let r3 := if r2.alpha2 = "NL" then { r2 with country := "Netherlands" } else r2
  if r3.alpha2 = "MD" then { r3 with country := "Moldova" } else r3

/-- The effect of the code-rewrite loop on a single row, updates applied
in dict insertion order. -/
def fix_code (r : CountryRow) : CountryRow :=
  let r1 := if r.country = "Greece" then { r with alpha2 := "EL" } else r
  if r1.country = "United Kingdom" then { r1 with alpha2 := "UK" } else r1

/-- The effect of both rewrite loops on a single row: the name rewrites
first, the code rewrites second. -/
def fix_row (r : CountryRow) : CountryRow :=
  fix_code (fix_country r)

theorem apply_country_updates_eq (t : List CountryRow) :
    apply_country_updates t = t.map fix_country := by
  simp only [apply_country_updates, country_updates, List.foldl_cons,
    List.foldl_nil, List.map_map]
  rfl

theorem apply_code_updates_eq (t : List CountryRow) :
    apply_code_updates t = t.map fix_code := by
  simp only [apply_code_updates, code_updates, List.foldl_cons,
    List.foldl_nil, List.map_map]
  rfl

theorem apply_updates_eq_map (t : List CountryRow) :
    apply_updates t = t.map fix_row := by
  rw [apply_updates, apply_country_updates_eq, apply_code_updates_eq, List.map_map]
  exact List.map_congr_left (fun r _ => by rw [Function.comp_apply, fix_row])

theorem fix_country_alpha2 (r : CountryRow) : (fix_country r).alpha2 = r.alpha2 := by
  simp [fix_country, apply_ite CountryRow.alpha2]

theorem fix_country_alpha3 (r : CountryRow) : (fix_country r).alpha3 = r.alpha3 := by
  simp [fix_country, apply_ite CountryRow.alpha3, apply_ite CountryRow.alpha2]

theorem fix_country_numeric (r : CountryRow) : (fix_country r).numeric = r.numeric := by
  simp [fix_country, apply_ite CountryRow.numeric, apply_ite CountryRow.alpha2]

theorem fix_country_country (r : CountryRow) :
    (fix_country r).country =
      if r.alpha2 = "US" then "United States"
      else if r.alpha2 = "GB" then "United Kingdom"
      else if r.alpha2 = "NL" then "Netherlands"
      else if r.alpha2 = "MD" then "Moldova"
      else r.country := by
  simp [fix_country, apply_ite CountryRow.country, apply_ite CountryRow.alpha2]
  split_ifs <;> simp_all

theorem fix_code_country (r : CountryRow) : (fix_code r).country = r.country := by
  simp [fix_code, apply_ite CountryRow.country]

theorem fix_code_alpha3 (r : CountryRow) : (fix_code r).alpha3 = r.alpha3 := by
  simp [fix_code, apply_ite CountryRow.alpha3, apply_ite CountryRow.country]

theorem fix_code_numeric (r : CountryRow) : (fix_code r).numeric = r.numeric := by
  simp [fix_code, apply_ite CountryRow.numeric, apply_ite CountryRow.country]

theorem fix_code_alpha2 (r : CountryRow) :
    (fix_code r).alpha2 =
      if r.country = "Greece" then "EL"
      else if r.country = "United Kingdom" then "UK"
      else r.alpha2 := by
  simp [fix_code, apply_ite CountryRow.alpha2, apply_ite CountryRow.country]
  split_ifs <;> simp_all

theorem fix_row_country (r : CountryRow) :
    (fix_row r).country =
      if r.alpha2 = "US" then "United States"
      else if r.alpha2 = "GB" then "United Kingdom"
      else if r.alpha2 = "NL" then "Netherlands"
      else if r.alpha2 = "MD" then "Moldova"
      else r.country := by
  rw [fix_row, fix_code_country, fix_country_country]

theorem fix_row_alpha3 (r : CountryRow) : (fix_row r).alpha3 = r.alpha3 := by
  rw [fix_row, fix_code_alpha3, fix_country_alpha3]

theorem fix_row_numeric (r : CountryRow) : (fix_row r).numeric = r.numeric := by
  rw [fix_row, fix_code_numeric, fix_country_numeric]

theorem fix_row_alpha2 (r : CountryRow) :
    (fix_row r).alpha2 =
      if (fix_country r).country = "Greece" then "EL"
      else if (fix_country r).country = "United Kingdom" then "UK"
      else r.alpha2 := by
  rw [fix_row, fix_code_alpha2, fix_country_alpha2]

theorem fix_row_idem (r : CountryRow) : fix_row (fix_row r) = fix_row r := by
  by_cases h1 : r.alpha2 = "US" <;> by_cases h2 : r.alpha2 = "GB" <;>
    by_cases h3 : r.alpha2 = "NL" <;> by_cases h4 : r.alpha2 = "MD" <;>
    by_cases h5 : r.country = "Greece" <;> by_cases h6 : r.country = "United Kingdom" <;>
    simp_all [CountryRow.ext_iff, fix_row_country, fix_row_alpha2, fix_country_country,
      fix_row_alpha3, fix_row_numeric]

theorem fix_row_gb (r : CountryRow) (h : r.alpha2 = "GB") :
    (fix_row r).country = "United Kingdom" ∧ (fix_row r).alpha2 = "UK" := by
  simp [fix_row_country, fix_row_alpha2, fix_country_country, h]

theorem fix_row_alpha2_ne_gb (r : CountryRow) : (fix_row r).alpha2 ≠ "GB" := by
  by_cases h1 : r.alpha2 = "US" <;> by_cases h2 : r.alpha2 = "GB" <;>
    by_cases h3 : r.alpha2 = "NL" <;> by_cases h4 : r.alpha2 = "MD" <;>
    by_cases h5 : r.country = "Greece" <;> by_cases h6 : r.country = "United Kingdom" <;>
    simp_all [fix_row_alpha2, fix_country_country]

theorem fix_row_alpha2_ne_gr (r : CountryRow) (h : r.alpha2 = "GR" → r.country = "Greece") :
    (fix_row r).alpha2 ≠ "GR" := by
  by_cases h0 : r.alpha2 = "GR" <;>
    by_cases h1 : r.alpha2 = "US" <;> by_cases h2 : r.alpha2 = "GB" <;>
    by_cases h3 : r.alpha2 = "NL" <;> by_cases h4 : r.alpha2 = "MD" <;>
    by_cases h5 : r.country = "Greece" <;> by_cases h6 : r.country = "United Kingdom" <;>
    simp_all [fix_row_alpha2, fix_country_country]

theorem fix_row_alpha2_ne_xk (r : CountryRow) (h : r.alpha2 ≠ "XK") :
    (fix_row r).alpha2 ≠ "XK" := by
  by_cases h1 : r.alpha2 = "US" <;> by_cases h2 : r.alpha2 = "GB" <;>
    by_cases h3 : r.alpha2 = "NL" <;> by_cases h4 : r.alpha2 = "MD" <;>
    by_cases h5 : r.country = "Greece" <;> by_cases h6 : r.country = "United Kingdom" <;>
    simp_all [fix_row_alpha2, fix_country_country]

/-- Python str.strip on the character list of a string: drop whitespace
from the left, then from the right. -/
def stripChars (l : List Char) : List Char :=
  (l.dropWhile Char.isWhitespace).rdropWhile Char.isWhitespace

/-- Python str.strip, as applied to every column name of the reshaped
frame (line df.columns = [col.strip() for col in df.columns]). -/
def pyStrip (s : String) : String :=
  String.mk (stripChars s.data)

/-- Python str.split on a single comma separator, over the character
list: every comma starts a new field, empty fields are kept, and the
empty string yields one empty field.  This is the split performed by
pandas str.split(",") on each compound cell. -/
def splitCommaChars : List Char → List (List Char)
  | [] => [[]]
  | c :: cs =>
    if c = ',' then [] :: splitCommaChars cs
    else
      match splitCommaChars cs with
      | [] => [[c]]
      | f :: r => (c :: f) :: r

/-- Python str.split(",") on a string. -/
def pySplitComma (s : String) : List String :=
  (splitCommaChars s.data).map String.mk

/-- One record of the tidy (melted) output of process_road_euro_stat:
the split key fields in order, the TIME_PERIOD label (a year column
name), and the value (none models NaN). -/
structure TidyRow where
  keys : List String
  TIME_PERIOD : String
  value : Option ℚ
deriving DecidableEq

/-- A wide input frame for process_road_euro_stat: its year column
names, and one entry per row holding the compound first-column cell and
the year cells in column order.  The name of the compound column is not
part of the shape: that column is selected, split and dropped. -/
structure WideTable where
  yearCols : List String
  rows : List (String × List (Option ℚ))

/-- pd.melt stacks one block per value column, in column order; inside a
block the original row order is kept.  Each block pairs every row with
the labelled year column and the cell of that row in it. -/
def meltBlocks (rows : List (String × List (Option ℚ))) :
    List (Nat × String) → List TidyRow
  | [] => []
  | jy :: rest =>
      rows.map (fun r => ⟨pySplitComma r.1, jy.2, r.2.getD jy.1 none⟩)
        ++ meltBlocks rows rest

/-- process_road_euro_stat: split the compound column on commas into the
key columns named by cols, drop the compound column, strip every column
name, then melt with the key columns as identifiers.  The cols argument
only names the split columns; the key values themselves are the split
parts, so it does not appear in the record data. -/
def process_road_euro_stat (t : WideTable) (_cols : List String) : List TidyRow :=
  meltBlocks t.rows (t.yearCols.map pyStrip).enum

/-- Re-pivot a tidy table on the key fields and the year: the value of
the first record carrying exactly these key values and this year. -/
def repivot (tidy : List TidyRow) (ks : List String) (y : String) :
    Option (Option ℚ) :=
  ((tidy.filter (fun r => decide (r.keys = ks ∧ r.TIME_PERIOD = y))).map
    TidyRow.value).head?

/-- A row of the annotated lgtt table (unloaded-in-reporting-country
flows) after both merge_and_rename calls: the six split key fields, the
year, the value, and the two joined country names (none where the join
found no match). -/
structure LgttRow where
  freq : String
  tra_type : String
  c_unload : String
  nst07 : String
  unit : String
  geo : String
  TIME_PERIOD : String
  value : Option ℚ
  unload_country : Option String
  geo_country : Option String
deriving DecidableEq

/-- A row of the annotated ugtt table (loaded-in-reporting-country
flows) after both merge_and_rename calls. -/
structure UgttRow where
  freq : String
  tra_type : String
  c_load : String
  nst07 : String
  unit : String
  geo : String
  TIME_PERIOD : String
  value : Option ℚ
  load_country : Option String
  geo_country : Option String
deriving DecidableEq

/-- A row of the annotated cross table (country-to-country flows) after
both merge_and_rename calls. -/
structure CrossRow where
  freq : String
  tra_type : String
  c_load : String
  c_unload : String
  nst07 : String
  unit : String
  geo : String
  TIME_PERIOD : String
  value : Option ℚ
  load_country : Option String
  unload_country : Option String
deriving DecidableEq

/-- The lgtt filter step: tra_type TOTAL, unit THS_T, nst07 TOTAL, year
2022, and c_unload of string length 2. -/
def lgtt_filtered (rows : List LgttRow) : List LgttRow :=
  rows.filter (fun r =>
    decide (r.tra_type = "TOTAL" ∧ r.unit = "THS_T" ∧ r.nst07 = "TOTAL" ∧
      r.TIME_PERIOD = "2022" ∧ r.c_unload.length = 2))

/-- The ugtt filter step: same fixed predicate, code column c_load. -/
def ugtt_filtered (rows : List UgttRow) : List UgttRow :=
  rows.filter (fun r =>
    decide (r.tra_type = "TOTAL" ∧ r.unit = "THS_T" ∧ r.nst07 = "TOTAL" ∧
      r.TIME_PERIOD = "2022" ∧ r.c_load.length = 2))

/-- The cross filter step: same fixed predicate, on both code columns. -/
def cross_filtered (rows : List CrossRow) : List CrossRow :=
  rows.filter (fun r =>
    decide (r.tra_type = "TOTAL" ∧ r.unit = "THS_T" ∧ r.nst07 = "TOTAL" ∧
      r.TIME_PERIOD = "2022" ∧ r.c_load.length = 2 ∧ r.c_unload.length = 2))

/-- The lgtt Belgium/France lookup: select rows with geo_country Belgium
and unload_country France, take the value column, and access element 0
by position.  none models the IndexError raised when the selection is
empty; otherwise the payload is the first selected value. -/
def lgtt_be_fr (rows : List LgttRow) : Option (Option ℚ) :=
  ((rows.filter (fun r =>
      decide (r.geo_country = some "Belgium" ∧ r.unload_country = some "France"))).map
    LgttRow.value).head?

/-- The ugtt Belgium/France lookup: rows with load_country Belgium and
geo_country France, value column, positional element 0. -/
def ugtt_be_fr (rows : List UgttRow) : Option (Option ℚ) :=
  ((rows.filter (fun r =>
      decide (r.load_country = some "Belgium" ∧ r.geo_country = some "France"))).map
    UgttRow.value).head?

/-- The cross Belgium to France aggregation: sum of the value column
over the selected rows.  pandas Series.sum skips NaN and returns 0.0 on
an empty selection, so none values are dropped before summing. -/
def cross_be_fr (rows : List CrossRow) : ℚ :=
  ((rows.filter (fun r =>
      decide (r.load_country = some "Belgium" ∧ r.unload_country = some "France"))).filterMap
    CrossRow.value).sum

/-- pandas merge with how left on a string key: every left row produces
one output per matching right row, in right-table order, and a left row
with no match is kept once with a null payload. -/
def merge_left {ρ : Type} (rows : List ρ) (key : ρ → String)
    (codes : List CountryRow) : List (ρ × Option String) :=
  rows.flatMap (fun r =>
    match codes.filter (fun c => decide (c.alpha2 = key r)) with
    | [] => [(r, none)]
    | ms => ms.map (fun c => (r, some c.country)))

/-- merge_and_rename, parameterised by the Excel reference table: it
reloads the corrected country table through get_country_codes, left
joins it on the caller-chosen code column, renames the joined Country
column, and drops the joined code column.  The output pairs each input
row with its country-name cell. -/
def merge_and_rename {ρ : Type} (rows : List ρ) (key : ρ → String)
    (base : List CountryRow) : List (ρ × Option String) :=
  merge_left rows key (get_country_codes base)

theorem dropWhile_rdropWhile (p : Char → Bool) (l : List Char) :
    (((l.dropWhile p).rdropWhile p).dropWhile p) = (l.dropWhile p).rdropWhile p := by
  rcases h : (l.dropWhile p).rdropWhile p with _ | ⟨a, as⟩
  · simp
  · have hpre : (l.dropWhile p).rdropWhile p <+: l.dropWhile p :=
      List.rdropWhile_prefix p (l.dropWhile p)
    rw [h] at hpre
    obtain ⟨t, ht⟩ := hpre
    have hd : l.dropWhile p = a :: (as ++ t) := by
      rw [← ht]; simp
    have hna : ¬ p a := by
      have hidem := List.dropWhile_idempotent p l
      rw [hd] at hidem
      by_contra hpa
      simp [List.dropWhile, hpa] at hidem
      have hle : (List.dropWhile p (as ++ t)).length ≤ (as ++ t).length :=
        (List.dropWhile_suffix p).length_le
      have hlen : (List.dropWhile p (as ++ t)).length = (as ++ t).length + 1 := by
        rw [hidem]; simp
      omega
    simp [List.dropWhile, hna]

theorem stripChars_idem (l : List Char) : stripChars (stripChars l) = stripChars l := by
  unfold stripChars
  rw [dropWhile_rdropWhile]
  exact List.rdropWhile_idempotent _ _

theorem pyStrip_idem (s : String) : pyStrip (pyStrip s) = pyStrip s :=
  congrArg String.mk (stripChars_idem s.data)

theorem meltBlocks_length (rows : List (String × List (Option ℚ)))
    (ys : List (Nat × String)) :
    (meltBlocks rows ys).length = ys.length * rows.length := by
  induction ys with
  | nil => simp [meltBlocks]
  | cons jy rest ih =>
      simp [meltBlocks, ih]
      ring

theorem filter_eq_single_of_nodup_map {α β : Type} [DecidableEq β]
    (f : α → β) (l : List α) (a : α)
    (h : (l.map f).Nodup) (ha : a ∈ l) :
    l.filter (fun x => decide (f x = f a)) = [a] := by
  induction l with
  | nil => cases ha
  | cons b l ih =>
      simp only [List.map_cons, List.nodup_cons, List.mem_map, not_exists] at h
      by_cases hfb : f b = f a
      · have hba : b = a := by
          rcases List.mem_cons.mp ha with heq | hal
          · exact heq.symm
          · exact absurd ⟨hal, hfb.symm⟩ (h.1 a)
        subst hba
        rw [List.filter_cons_of_pos (by simp [hfb])]
        have htail : l.filter (fun x => decide (f x = f b)) = [] := by
          apply List.filter_eq_nil_iff.mpr
          intro x hx
          simp only [decide_eq_true_eq]
          exact fun hfx => h.1 x ⟨hx, hfx⟩
        rw [htail]
      · have hal : a ∈ l := by
          rcases List.mem_cons.mp ha with heq | hal
          · exact absurd (heq ▸ rfl) hfb
          · exact hal
        rw [List.filter_cons_of_neg (by simpa using hfb)]
        exact ih h.2 hal

theorem meltBlocks_mem_time (rows : List (String × List (Option ℚ)))
    (ys : List (Nat × String)) (r : TidyRow) (hr : r ∈ meltBlocks rows ys) :
    r.TIME_PERIOD ∈ ys.map Prod.snd := by
  induction ys with
  | nil => cases hr
  | cons jy rest ih =>
      simp only [meltBlocks, List.mem_append, List.mem_map] at hr
      rcases hr with ⟨w, _, rfl⟩ | hr
      · simp
      · simp [ih hr]

theorem meltBlocks_lookup (rows : List (String × List (Option ℚ)))
    (ys : List (Nat × String)) (a : String × List (Option ℚ))
    (j : Nat) (y : String)
    (hkeys : (rows.map (fun r => pySplitComma r.1)).Nodup)
    (ha : a ∈ rows)
    (hy : (j, y) ∈ ys)
    (hynd : (ys.map Prod.snd).Nodup) :
    repivot (meltBlocks rows ys) (pySplitComma a.1) y = some (a.2.getD j none) := by
  induction ys with
  | nil => cases hy
  | cons kz rest ih =>
      obtain ⟨k, z⟩ := kz
      simp only [List.map_cons, List.nodup_cons] at hynd
      by_cases hzy : z = y
      · subst hzy
        have hjk : j = k := by
          rcases List.mem_cons.mp hy with heq | hmem
          · rw [Prod.ext_iff] at heq
            exact heq.1
          · exact absurd (List.mem_map.mpr ⟨(j, z), hmem, rfl⟩) hynd.1
        subst hjk
        unfold repivot meltBlocks
        rw [List.filter_append, List.filter_map]
        have hcomp :
            ((fun r => decide (r.keys = pySplitComma a.1 ∧ r.TIME_PERIOD = z)) ∘
              (fun r : String × List (Option ℚ) =>
                (⟨pySplitComma r.1, z, r.2.getD j none⟩ : TidyRow))) =
            fun x : String × List (Option ℚ) =>
              decide ((fun r : String × List (Option ℚ) => pySplitComma r.1) x =
                (fun r : String × List (Option ℚ) => pySplitComma r.1) a) := by
          funext x
          simp
        rw [hcomp, filter_eq_single_of_nodup_map _ rows a hkeys ha]
        simp
      · have hy' : (j, y) ∈ rest := by
          rcases List.mem_cons.mp hy with heq | hmem
          · rw [Prod.ext_iff] at heq
            exact absurd heq.2.symm hzy
          · exact hmem
        unfold repivot meltBlocks
        rw [List.filter_append, List.filter_map]
        have hblock :
            rows.filter ((fun r => decide (r.keys = pySplitComma a.1 ∧ r.TIME_PERIOD = y)) ∘
              (fun r => (⟨pySplitComma r.1, z, r.2.getD k none⟩ : TidyRow))) = [] := by
          apply List.filter_eq_nil_iff.mpr
          intro x hx
          simp [hzy]
        rw [hblock]
        simpa [repivot] using ih hy' hynd.2

theorem merge_left_total {ρ : Type} (rows : List ρ) (key : ρ → String)
    (codes : List CountryRow) (r : ρ) (hr : r ∈ rows) :
    ∃ n, (r, n) ∈ merge_left rows key codes := by
  rcases hm : codes.filter (fun c => decide (c.alpha2 = key r)) with _ | ⟨c, ms⟩
  · refine ⟨none, List.mem_flatMap.mpr ⟨r, hr, ?_⟩⟩
    rw [hm]
    exact List.mem_singleton.mpr rfl
  · refine ⟨some c.country, List.mem_flatMap.mpr ⟨r, hr, ?_⟩⟩
    rw [hm]
    exact List.mem_map.mpr ⟨c, List.mem_cons_self c ms, rfl⟩

theorem merge_left_match {ρ : Type} (rows : List ρ) (key : ρ → String)
    (codes : List CountryRow) (r : ρ) (hr : r ∈ rows)
    (c : CountryRow) (hc : c ∈ codes) (hkey : c.alpha2 = key r) :
    (r, some c.country) ∈ merge_left rows key codes := by
  apply List.mem_flatMap.mpr
  refine ⟨r, hr, ?_⟩
  have hcf : c ∈ codes.filter (fun c => decide (c.alpha2 = key r)) :=
    List.mem_filter.mpr ⟨hc, by simp [hkey]⟩
  rcases hm : codes.filter (fun c => decide (c.alpha2 = key r)) with _ | ⟨c0, ms⟩
  · rw [hm] at hcf
    cases hcf
  · rw [hm] at hcf
    rw [hm]
    exact List.mem_map.mpr ⟨c, hcf, rfl⟩

theorem merge_left_no_match {ρ : Type} (rows : List ρ) (key : ρ → String)
    (codes : List CountryRow) (r : ρ) (hr : r ∈ rows)
    (hnm : ∀ c ∈ codes, c.alpha2 ≠ key r) :
    (r, (none : Option String)) ∈ merge_left rows key codes := by
  apply List.mem_flatMap.mpr
  refine ⟨r, hr, ?_⟩
  have hm : codes.filter (fun c => decide (c.alpha2 = key r)) = [] :=
    List.filter_eq_nil_iff.mpr (fun c hc => by simpa using hnm c hc)
  rw [hm]
  exact List.mem_singleton.mpr rfl

theorem merge_left_payload {ρ : Type} (rows : List ρ) (key : ρ → String)
    (codes : List CountryRow) (p : ρ × Option String)
    (hp : p ∈ merge_left rows key codes)
    (hnm : ∀ c ∈ codes, c.alpha2 ≠ key p.1) : p.2 = none := by
  obtain ⟨r, hr, hblock⟩ := List.mem_flatMap.mp hp
  rcases hm : codes.filter (fun c => decide (c.alpha2 = key r)) with _ | ⟨c0, ms⟩
  · rw [hm] at hblock
    have hpr : p = (r, none) := List.mem_singleton.mp hblock
    rw [hpr]
  · rw [hm] at hblock
    obtain ⟨c, hcmem, hpc⟩ := List.mem_map.mp hblock
    have hcf : c ∈ codes.filter (fun c => decide (c.alpha2 = key r)) := by
      rw [hm]; exact hcmem
    have hcc := List.mem_filter.mp hcf
    have hkey : c.alpha2 = key r := by simpa using hcc.2
    have hr1 : p.1 = r := by rw [← hpc]
    exact absurd (hr1 ▸ hkey) (hnm c hcc.1)

/-- Claim C3: in get_country_codes the code-field rewrites run after the
name-field rewrites, so a row whose 2-letter code was originally GB ends
with name United Kingdom and code UK in the returned table (its other
two fields unchanged). -/
theorem claim_c3 (t : List CountryRow) (r : CountryRow)
    (hr : r ∈ t) (h : r.alpha2 = "GB") :
    get_country_codes t = (t.map fix_country).map fix_code ++ [kosovo_row] ∧
    ∃ s ∈ get_country_codes t,
      s.country = "United Kingdom" ∧ s.alpha2 = "UK" ∧
      s.alpha3 = r.alpha3 ∧ s.numeric = r.numeric := by
  constructor
  · rw [get_country_codes, apply_updates, apply_country_updates_eq, apply_code_updates_eq]
  · refine ⟨fix_row r, ?_,
      (fix_row_gb r h).1, (fix_row_gb r h).2, fix_row_alpha3 r, fix_row_numeric r⟩
    rw [get_country_codes, apply_updates_eq_map]
    exact List.mem_append_left _ (List.mem_map.mpr ⟨r, hr, rfl⟩)

/-- Witness for claim C3 at a one-row reference table holding the GB
row. -/
theorem claim_c3_witness :
    ((⟨"Britain", "GB", "GBR", 826⟩ : CountryRow) ∈
        ([⟨"Britain", "GB", "GBR", 826⟩] : List CountryRow)) ∧
    (⟨"Britain", "GB", "GBR", 826⟩ : CountryRow).alpha2 = "GB" ∧
    (get_country_codes [⟨"Britain", "GB", "GBR", 826⟩] =
        (([⟨"Britain", "GB", "GBR", 826⟩] : List CountryRow).map fix_country).map fix_code
          ++ [kosovo_row] ∧
      ∃ s ∈ get_country_codes [⟨"Britain", "GB", "GBR", 826⟩],
        s.country = "United Kingdom" ∧ s.alpha2 = "UK" ∧
        s.alpha3 = "GBR" ∧ s.numeric = 826) :=
  ⟨List.mem_singleton.mpr rfl, rfl,
    claim_c3 [⟨"Britain", "GB", "GBR", 826⟩] ⟨"Britain", "GB", "GBR", 826⟩
      (List.mem_singleton.mpr rfl) rfl⟩

/-- Claim C6: the two rewrite passes of get_country_codes are
idempotent, both on an arbitrary table and on the returned corrected
table itself. -/
theorem claim_c6 (t : List CountryRow) :
    apply_updates (apply_updates t) = apply_updates t ∧
    apply_updates (get_country_codes t) = get_country_codes t := by
  have hmap : ∀ s : List CountryRow, apply_updates (apply_updates s) = apply_updates s := by
    intro s
    rw [apply_updates_eq_map, apply_updates_eq_map, List.map_map]
    exact List.map_congr_left (fun r _ => by rw [Function.comp_apply, fix_row_idem])
  refine ⟨hmap t, ?_⟩
  have hk : fix_row kosovo_row = kosovo_row := by decide
  calc apply_updates (get_country_codes t)
      = (apply_updates t ++ [kosovo_row]).map fix_row := by
        rw [get_country_codes, apply_updates_eq_map]
    _ = (apply_updates t).map fix_row ++ [fix_row kosovo_row] := by
        rw [List.map_append]; rfl
    _ = apply_updates (apply_updates t) ++ [kosovo_row] := by
        rw [← apply_updates_eq_map, hk]
    _ = get_country_codes t := by rw [hmap t, get_country_codes]

/-- Claim C7: get_country_codes appends exactly the synthetic Kosovo row
(name Kosovo, codes XK, XKO, 9999), and if the reference table has no XK
row then the corrected table has exactly one row with code XK. -/
theorem claim_c7 (t : List CountryRow) (h : ∀ r ∈ t, r.alpha2 ≠ "XK") :
    get_country_codes t = apply_updates t ++ [kosovo_row] ∧
    kosovo_row.country = "Kosovo" ∧ kosovo_row.alpha2 = "XK" ∧
    kosovo_row.alpha3 = "XKO" ∧ kosovo_row.numeric = 9999 ∧
    ((get_country_codes t).filter (fun r => decide (r.alpha2 = "XK"))).length = 1 := by
  refine ⟨rfl, rfl, rfl, rfl, rfl, ?_⟩
  rw [get_country_codes, List.filter_append, apply_updates_eq_map, List.filter_map]
  have hnil : t.filter ((fun r => decide (r.alpha2 = "XK")) ∘ fix_row) = [] := by
    apply List.filter_eq_nil_iff.mpr
    intro r hrt
    simp only [Function.comp_apply, decide_eq_true_eq]
    exact fix_row_alpha2_ne_xk r (h r hrt)
  rw [hnil]
  rfl

/-- Witness for claim C7 at a one-row reference table without an XK
row. -/
theorem claim_c7_witness :
    (∀ r ∈ ([⟨"Greece", "GR", "GRC", 300⟩] : List CountryRow), r.alpha2 ≠ "XK") ∧
    (get_country_codes [⟨"Greece", "GR", "GRC", 300⟩] =
        apply_updates [⟨"Greece", "GR", "GRC", 300⟩] ++ [kosovo_row] ∧
      kosovo_row.country = "Kosovo" ∧ kosovo_row.alpha2 = "XK" ∧
      kosovo_row.alpha3 = "XKO" ∧ kosovo_row.numeric = 9999 ∧
      ((get_country_codes [⟨"Greece", "GR", "GRC", 300⟩]).filter
        (fun r => decide (r.alpha2 = "XK"))).length = 1) :=
  ⟨by decide, claim_c7 [⟨"Greece", "GR", "GRC", 300⟩] (by decide)⟩

/-- Claim C5: merge_and_rename is a left join onto the corrected country
table: every input row appears in the output, a row whose code matches
an entry of the corrected table gets that entry name, and a row with no
match is kept with a null name. -/
theorem claim_c5 {ρ : Type} (rows : List ρ) (key : ρ → String) (base : List CountryRow) :
    (∀ r ∈ rows, ∃ n, (r, n) ∈ merge_and_rename rows key base) ∧
    (∀ r ∈ rows, ∀ c ∈ get_country_codes base, c.alpha2 = key r →
      (r, some c.country) ∈ merge_and_rename rows key base) ∧
    (∀ r ∈ rows, (∀ c ∈ get_country_codes base, c.alpha2 ≠ key r) →
      (r, (none : Option String)) ∈ merge_and_rename rows key base) :=
  ⟨fun r hr => merge_left_total rows key (get_country_codes base) r hr,
   fun r hr c hc hkey => merge_left_match rows key (get_country_codes base) r hr c hc hkey,
   fun r hr hnm => merge_left_no_match rows key (get_country_codes base) r hr hnm⟩

/-- Witness for claim C5: a matched code gets its country name and an
unknown code is kept with a null name. -/
theorem claim_c5_witness :
    ("BE" ∈ ["BE", "QQ"] ∧
      (⟨"Belgium", "BE", "BEL", 56⟩ : CountryRow) ∈
        get_country_codes [⟨"Belgium", "BE", "BEL", 56⟩] ∧
      (⟨"Belgium", "BE", "BEL", 56⟩ : CountryRow).alpha2 = id "BE" ∧
      ("BE", some "Belgium") ∈
        merge_and_rename ["BE", "QQ"] id [⟨"Belgium", "BE", "BEL", 56⟩]) ∧
    ("QQ" ∈ ["BE", "QQ"] ∧
      (∀ c ∈ get_country_codes [⟨"Belgium", "BE", "BEL", 56⟩], c.alpha2 ≠ id "QQ") ∧
      ("QQ", (none : Option String)) ∈
        merge_and_rename ["BE", "QQ"] id [⟨"Belgium", "BE", "BEL", 56⟩]) :=
  ⟨⟨by decide, by decide, by decide,
    (claim_c5 ["BE", "QQ"] id [⟨"Belgium", "BE", "BEL", 56⟩]).2.1 "BE" (by decide)
      ⟨"Belgium", "BE", "BEL", 56⟩ (by decide) (by decide)⟩,
   ⟨by decide, by decide,
    (claim_c5 ["BE", "QQ"] id [⟨"Belgium", "BE", "BEL", 56⟩]).2.2 "QQ" (by decide)
      (by decide)⟩⟩

/-- Claim C10: after the corrections no row of the returned country
table carries code GB, nor code GR provided the source names the GR row
Greece; consequently merge_and_rename gives every row keyed GB or GR a
null country name. -/
theorem claim_c10 {ρ : Type} (t : List CountryRow)
    (hgr : ∀ r ∈ t, r.alpha2 = "GR" → r.country = "Greece")
    (rows : List ρ) (key : ρ → String) :
    (∀ c ∈ get_country_codes t, c.alpha2 ≠ "GB" ∧ c.alpha2 ≠ "GR") ∧
    (∀ r ∈ rows, (key r = "GB" ∨ key r = "GR") →
      (r, (none : Option String)) ∈ merge_and_rename rows key t) ∧
    (∀ p ∈ merge_and_rename rows key t, (key p.1 = "GB" ∨ key p.1 = "GR") →
      p.2 = none) := by
  have hcodes : ∀ c ∈ get_country_codes t, c.alpha2 ≠ "GB" ∧ c.alpha2 ≠ "GR" := by
    intro c hc
    rw [get_country_codes, apply_updates_eq_map] at hc
    rcases List.mem_append.mp hc with hmap | hk
    · obtain ⟨r, hrt, rfl⟩ := List.mem_map.mp hmap
      exact ⟨fix_row_alpha2_ne_gb r, fix_row_alpha2_ne_gr r (hgr r hrt)⟩
    · have hck : c = kosovo_row := List.mem_singleton.mp hk
      subst hck
      exact ⟨by decide, by decide⟩
  refine ⟨hcodes, ?_, ?_⟩
  · intro r hr hkey
    apply merge_left_no_match rows key (get_country_codes t) r hr
    intro c hc
    rcases hkey with hk | hk <;> rw [hk]
    · exact (hcodes c hc).1
    · exact (hcodes c hc).2
  · intro p hp hkey
    apply merge_left_payload rows key (get_country_codes t) p hp
    intro c hc
    rcases hkey with hk | hk <;> rw [hk]
    · exact (hcodes c hc).1
    · exact (hcodes c hc).2

/-- Witness for claim C10 at a one-row source table naming GR Greece and
inputs keyed GB and GR. -/
theorem claim_c10_witness :
    (∀ r ∈ ([⟨"Greece", "GR", "GRC", 300⟩] : List CountryRow),
      r.alpha2 = "GR" → r.country = "Greece") ∧
    ((∀ c ∈ get_country_codes [⟨"Greece", "GR", "GRC", 300⟩],
        c.alpha2 ≠ "GB" ∧ c.alpha2 ≠ "GR") ∧
      (∀ r ∈ ["GB", "GR"], (id r = "GB" ∨ id r = "GR") →
        (r, (none : Option String)) ∈
          merge_and_rename ["GB", "GR"] id [⟨"Greece", "GR", "GRC", 300⟩]) ∧
      (∀ p ∈ merge_and_rename ["GB", "GR"] id [⟨"Greece", "GR", "GRC", 300⟩],
        (id p.1 = "GB" ∨ id p.1 = "GR") → p.2 = none)) :=
  ⟨by decide, claim_c10 [⟨"Greece", "GR", "GRC", 300⟩] (by decide) ["GB", "GR"] id⟩

/-- Rows used by the claim C1 counterexample: two lgtt rows whose
geo_country is Belgium and unload_country is France. -/
def lgtt_two_matches : List LgttRow :=
  [⟨"A", "TOTAL", "FR", "TOTAL", "THS_T", "BE", "2022", some 5,
      some "France", some "Belgium"⟩,
   ⟨"A", "TOTAL", "FR", "TOTAL", "THS_T", "BE", "2021", some 7,
      some "France", some "Belgium"⟩]

/-- Claim C1 (amended): the positional Belgium/France lookup on each
unidirectional table raises exactly when zero rows match; with one or
more matches it returns the first matching value, in particular the
single value when exactly one row matches. -/
theorem claim_c1 (lrows : List LgttRow) (urows : List UgttRow) :
    (lgtt_be_fr lrows = none ↔
      lrows.filter (fun r => decide (r.geo_country = some "Belgium" ∧
        r.unload_country = some "France")) = []) ∧
    (∀ r rest, lrows.filter (fun r => decide (r.geo_country = some "Belgium" ∧
        r.unload_country = some "France")) = r :: rest →
      lgtt_be_fr lrows = some r.value) ∧
    (ugtt_be_fr urows = none ↔
      urows.filter (fun r => decide (r.load_country = some "Belgium" ∧
        r.geo_country = some "France")) = []) ∧
    (∀ r rest, urows.filter (fun r => decide (r.load_country = some "Belgium" ∧
        r.geo_country = some "France")) = r :: rest →
      ugtt_be_fr urows = some r.value) := by
  refine ⟨?_, ?_, ?_, ?_⟩
  · rw [lgtt_be_fr, List.head?_eq_none_iff, List.map_eq_nil_iff]
  · intro r rest h
    rw [lgtt_be_fr, h]
    rfl
  · rw [ugtt_be_fr, List.head?_eq_none_iff, List.map_eq_nil_iff]
  · intro r rest h
    rw [ugtt_be_fr, h]
    rfl

/-- Counterexample to claim C1 as stated: with two matching rows the
positional access does not raise; it returns the first value. -/
theorem claim_c1_counterexample :
    (lgtt_two_matches.filter (fun r => decide (r.geo_country = some "Belgium" ∧
      r.unload_country = some "France"))).length = 2 ∧
    lgtt_be_fr lgtt_two_matches ≠ none ∧
    lgtt_be_fr lgtt_two_matches = some (some 5) := by
  refine ⟨by decide, ?_, by decide⟩
  intro h
  rw [show lgtt_be_fr lgtt_two_matches = some (some 5) by decide] at h
  cases h

/-- Witness for claim C1 at singleton match lists. -/
theorem claim_c1_witness :
    ([(⟨"A", "TOTAL", "FR", "TOTAL", "THS_T", "BE", "2022", some 3,
        some "France", some "Belgium"⟩ : LgttRow)].filter
      (fun r => decide (r.geo_country = some "Belgium" ∧
        r.unload_country = some "France")) =
      (⟨"A", "TOTAL", "FR", "TOTAL", "THS_T", "BE", "2022", some 3,
        some "France", some "Belgium"⟩ : LgttRow) :: []) ∧
    lgtt_be_fr [⟨"A", "TOTAL", "FR", "TOTAL", "THS_T", "BE", "2022", some 3,
      some "France", some "Belgium"⟩] = some (some 3) ∧
    ugtt_be_fr [] = none :=
  ⟨by decide,
   (claim_c1 [⟨"A", "TOTAL", "FR", "TOTAL", "THS_T", "BE", "2022", some 3,
      some "France", some "Belgium"⟩] []).2.1
     ⟨"A", "TOTAL", "FR", "TOTAL", "THS_T", "BE", "2022", some 3,
      some "France", some "Belgium"⟩ [] (by decide),
   (claim_c1 [⟨"A", "TOTAL", "FR", "TOTAL", "THS_T", "BE", "2022", some 3,
      some "France", some "Belgium"⟩] []).2.2.1.mpr (by decide)⟩

/-- Claim C9: the cross-table Belgium to France aggregation is total:
an empty selection sums to 0, a null value contributes nothing, a
matching row with value v adds v, and a non-matching row is ignored. -/
theorem claim_c9 (rows : List CrossRow) (r : CrossRow) :
    (rows.filter (fun x => decide (x.load_country = some "Belgium" ∧
        x.unload_country = some "France")) = [] → cross_be_fr rows = 0) ∧
    (r.value = none → cross_be_fr (r :: rows) = cross_be_fr rows) ∧
    (∀ v : ℚ, r.value = some v → r.load_country = some "Belgium" →
      r.unload_country = some "France" →
      cross_be_fr (r :: rows) = v + cross_be_fr rows) ∧
    (¬ (r.load_country = some "Belgium" ∧ r.unload_country = some "France") →
      cross_be_fr (r :: rows) = cross_be_fr rows) := by
  refine ⟨?_, ?_, ?_, ?_⟩
  · intro h
    rw [cross_be_fr, h]
    rfl
  · intro hv
    by_cases hm : r.load_country = some "Belgium" ∧ r.unload_country = some "France"
    · rw [cross_be_fr, List.filter_cons_of_pos (by simpa using hm), cross_be_fr]
      rw [List.filterMap_cons_none]
      exact hv
    · rw [cross_be_fr, List.filter_cons_of_neg (by simpa using hm), cross_be_fr]
  · intro v hv hl hu
    rw [cross_be_fr, List.filter_cons_of_pos (by simp [hl, hu]), cross_be_fr]
    rw [List.filterMap_cons_some hv, List.sum_cons]
  · intro hm
    rw [cross_be_fr, List.filter_cons_of_neg (by simpa using hm), cross_be_fr]

/-- Witness for claim C9: a matching 5, an ignored null match, and an
ignored non-match over an empty tail. -/
theorem claim_c9_witness :
    ((⟨"A", "TOTAL", "BE", "FR", "TOTAL", "THS_T", "BE", "2022", some 5,
        some "Belgium", some "France"⟩ : CrossRow).value = some 5 ∧
      cross_be_fr [⟨"A", "TOTAL", "BE", "FR", "TOTAL", "THS_T", "BE", "2022", some 5,
        some "Belgium", some "France"⟩] = 5 + cross_be_fr []) ∧
    ((⟨"A", "TOTAL", "BE", "FR", "TOTAL", "THS_T", "BE", "2022", none,
        some "Belgium", some "France"⟩ : CrossRow).value = none ∧
      cross_be_fr [⟨"A", "TOTAL", "BE", "FR", "TOTAL", "THS_T", "BE", "2022", none,
        some "Belgium", some "France"⟩] = cross_be_fr []) ∧
    cross_be_fr [] = 0 :=
  ⟨⟨rfl,
    (claim_c9 [] ⟨"A", "TOTAL", "BE", "FR", "TOTAL", "THS_T", "BE", "2022", some 5,
      some "Belgium", some "France"⟩).2.2.1 5 rfl rfl rfl⟩,
   ⟨rfl,
    (claim_c9 [] ⟨"A", "TOTAL", "BE", "FR", "TOTAL", "THS_T", "BE", "2022", none,
      some "Belgium", some "France"⟩).2.1 rfl⟩,
   (claim_c9 [] ⟨"A", "TOTAL", "BE", "FR", "TOTAL", "THS_T", "BE", "2022", none,
      some "Belgium", some "France"⟩).1 rfl⟩

/-- Claim C4: each of the three filter steps keeps exactly the rows with
tra_type TOTAL, unit THS_T, nst07 TOTAL, TIME_PERIOD 2022 and 2-letter
code columns, preserving order and multiplicity. -/
theorem claim_c4 (l : List LgttRow) (u : List UgttRow) (c : List CrossRow) :
    (∀ r, r ∈ lgtt_filtered l ↔ r ∈ l ∧ r.tra_type = "TOTAL" ∧ r.unit = "THS_T" ∧
      r.nst07 = "TOTAL" ∧ r.TIME_PERIOD = "2022" ∧ r.c_unload.length = 2) ∧
    List.Sublist (lgtt_filtered l) l ∧
    (∀ r, r ∈ ugtt_filtered u ↔ r ∈ u ∧ r.tra_type = "TOTAL" ∧ r.unit = "THS_T" ∧
      r.nst07 = "TOTAL" ∧ r.TIME_PERIOD = "2022" ∧ r.c_load.length = 2) ∧
    List.Sublist (ugtt_filtered u) u ∧
    (∀ r, r ∈ cross_filtered c ↔ r ∈ c ∧ r.tra_type = "TOTAL" ∧ r.unit = "THS_T" ∧
      r.nst07 = "TOTAL" ∧ r.TIME_PERIOD = "2022" ∧ r.c_load.length = 2 ∧
      r.c_unload.length = 2) ∧
    List.Sublist (cross_filtered c) c := by
  refine ⟨fun r => ?_, List.filter_sublist _, fun r => ?_, List.filter_sublist _,
    fun r => ?_, List.filter_sublist _⟩ <;>
    simp [lgtt_filtered, ugtt_filtered, cross_filtered, List.mem_filter, and_assoc]

theorem mem_enum_getD {α : Type} (l : List α) (j : Nat) (d : α) (hj : j < l.length) :
    (j, l.getD j d) ∈ l.enum := by
  rw [List.mk_mem_enum_iff_getElem?, List.getD_eq_getElem l d hj]
  exact List.getElem?_eq_getElem hj

/-- Claim C2: reshape round trip: on a wide table whose compound cells
split into N fields, with N key names, the tidy output has rows times
years records, and re-pivoting it on the key fields and the year
recovers every original cell. -/
theorem claim_c2 (t : WideTable) (cols : List String) (N : Nat)
    (_hcols : cols.length = N)
    (_hsplit : ∀ r ∈ t.rows, (pySplitComma r.1).length = N)
    (_hrect : ∀ r ∈ t.rows, r.2.length = t.yearCols.length)
    (hkeys : (t.rows.map (fun r => pySplitComma r.1)).Nodup)
    (hyears : (t.yearCols.map pyStrip).Nodup) :
    (process_road_euro_stat t cols).length = t.rows.length * t.yearCols.length ∧
    ∀ r ∈ t.rows, ∀ j, j < t.yearCols.length →
      repivot (process_road_euro_stat t cols) (pySplitComma r.1)
        (pyStrip (t.yearCols.getD j "")) = some (r.2.getD j none) := by
  constructor
  · rw [process_road_euro_stat, meltBlocks_length]
    simp [Nat.mul_comm]
  · intro r hr j hj
    rw [process_road_euro_stat]
    have hy : (j, pyStrip (t.yearCols.getD j "")) ∈ (t.yearCols.map pyStrip).enum := by
      have hmem := mem_enum_getD (t.yearCols.map pyStrip) j "" (by simpa using hj)
      have hgd : (t.yearCols.map pyStrip).getD j "" = pyStrip (t.yearCols.getD j "") := by
        rw [List.getD_eq_getElem _ _ (by simpa using hj), List.getD_eq_getElem _ _ hj]
        simp
      rwa [hgd] at hmem
    exact meltBlocks_lookup t.rows _ r j _ hkeys hr hy
      (by rw [List.enum_map_snd]; exact hyears)

/-- Witness for claim C2 at a 2-row, 2-year wide table. -/
theorem claim_c2_witness :
    (["k1", "k2"].length = 2 ∧
      (∀ r ∈ (⟨["2021", " 2022"], [("a,b", [some 1, some 2]),
        ("c,d", [some 3, some 4])]⟩ : WideTable).rows, (pySplitComma r.1).length = 2) ∧
      (∀ r ∈ (⟨["2021", " 2022"], [("a,b", [some 1, some 2]),
        ("c,d", [some 3, some 4])]⟩ : WideTable).rows,
        r.2.length = (⟨["2021", " 2022"], [("a,b", [some 1, some 2]),
          ("c,d", [some 3, some 4])]⟩ : WideTable).yearCols.length) ∧
      ((⟨["2021", " 2022"], [("a,b", [some 1, some 2]),
        ("c,d", [some 3, some 4])]⟩ : WideTable).rows.map
          (fun r => pySplitComma r.1)).Nodup ∧
      ((⟨["2021", " 2022"], [("a,b", [some 1, some 2]),
        ("c,d", [some 3, some 4])]⟩ : WideTable).yearCols.map pyStrip).Nodup) ∧
    ((process_road_euro_stat ⟨["2021", " 2022"], [("a,b", [some 1, some 2]),
        ("c,d", [some 3, some 4])]⟩ ["k1", "k2"]).length =
      (⟨["2021", " 2022"], [("a,b", [some 1, some 2]),
        ("c,d", [some 3, some 4])]⟩ : WideTable).rows.length *
        (⟨["2021", " 2022"], [("a,b", [some 1, some 2]),
          ("c,d", [some 3, some 4])]⟩ : WideTable).yearCols.length ∧
      ∀ r ∈ (⟨["2021", " 2022"], [("a,b", [some 1, some 2]),
        ("c,d", [some 3, some 4])]⟩ : WideTable).rows,
        ∀ j, j < (⟨["2021", " 2022"], [("a,b", [some 1, some 2]),
          ("c,d", [some 3, some 4])]⟩ : WideTable).yearCols.length →
        repivot (process_road_euro_stat ⟨["2021", " 2022"],
            [("a,b", [some 1, some 2]), ("c,d", [some 3, some 4])]⟩ ["k1", "k2"])
          (pySplitComma r.1)
          (pyStrip ((⟨["2021", " 2022"], [("a,b", [some 1, some 2]),
            ("c,d", [some 3, some 4])]⟩ : WideTable).yearCols.getD j "")) =
          some (r.2.getD j none)) :=
  ⟨⟨by decide, by decide, by decide, by decide, by decide⟩,
   claim_c2 ⟨["2021", " 2022"], [("a,b", [some 1, some 2]), ("c,d", [some 3, some 4])]⟩
     ["k1", "k2"] 2 (by decide) (by decide) (by decide) (by decide) (by decide)⟩

/-- Claim C8: process_road_euro_stat is invariant under leading or
trailing spaces in the input column names, and every TIME_PERIOD label
of the output is already stripped. -/
theorem claim_c8 (t u : WideTable) (cols : List String)
    (hrows : t.rows = u.rows)
    (hcols : t.yearCols.map pyStrip = u.yearCols.map pyStrip) :
    process_road_euro_stat t cols = process_road_euro_stat u cols ∧
    ∀ r ∈ process_road_euro_stat t cols, pyStrip r.TIME_PERIOD = r.TIME_PERIOD := by
  constructor
  · rw [process_road_euro_stat, process_road_euro_stat, hrows, hcols]
  · intro r hr
    have hmem := meltBlocks_mem_time t.rows ((t.yearCols.map pyStrip).enum) r hr
    rw [List.enum_map_snd] at hmem
    obtain ⟨y, _, heq⟩ := List.mem_map.mp hmem
    rw [← heq]
    exact pyStrip_idem y

/-- Witness for claim C8 at two one-year tables padded differently. -/
theorem claim_c8_witness :
    ((⟨[" 2022"], [("a,b", [some 1])]⟩ : WideTable).rows =
      (⟨["2022 "], [("a,b", [some 1])]⟩ : WideTable).rows ∧
      (⟨[" 2022"], [("a,b", [some 1])]⟩ : WideTable).yearCols.map pyStrip =
        (⟨["2022 "], [("a,b", [some 1])]⟩ : WideTable).yearCols.map pyStrip) ∧
    (process_road_euro_stat ⟨[" 2022"], [("a,b", [some 1])]⟩ ["k1", "k2"] =
      process_road_euro_stat ⟨["2022 "], [("a,b", [some 1])]⟩ ["k1", "k2"] ∧
      ∀ r ∈ process_road_euro_stat ⟨[" 2022"], [("a,b", [some 1])]⟩ ["k1", "k2"],
        pyStrip r.TIME_PERIOD = r.TIME_PERIOD) :=
  ⟨⟨by decide, by decide⟩,
   claim_c8 ⟨[" 2022"], [("a,b", [some 1])]⟩ ⟨["2022 "], [("a,b", [some 1])]⟩
     ["k1", "k2"] (by decide) (by decide)⟩

end EurostatRoad
